import Mathlib

/-!
Verification of the lead-allocation engine of `streamlit_app.py`.

The engine distributes `total_leads` integer leads over a list of marketing
campaigns, maximizing a weighted net-profit objective subject to
  1. an exact-total constraint `Σ x_i = total_leads`,
  2. a "corpo" category floor (only when a corpo campaign exists),
  3. a strong per-campaign minimum-share constraint inside every category
     holding at least two campaigns,
  4. a budget ceiling `Σ cost_i · x_i ≤ budget_max`.

The definitions below are a shallow embedding of `solve_mip`,
`compute_solution_df`, the CSV ingestion and the Scenario-A pre-check of
`main`.  Monetary quantities are rationals; decision variables are naturals
(the PuLP variables are integer with lower bound 0).
-/

/-- A campaign record as built by `main` (manual entry or CSV row). -/
structure Campaign where
  name : String
  category : String
  cost : ℚ
  revenue : ℚ
  revenue_60d : ℚ
deriving DecidableEq

/-- The objective coefficient of one campaign in `solve_mip`:
`(revenue - cost) * weight_immediate + (revenue_60d - cost) * (1 - weight_immediate)`. -/
def weighted_profit (w : ℚ) (c : Campaign) : ℚ :=
  (c.revenue - c.cost) * w + (c.revenue_60d - c.cost) * (1 - w)

/-- The objective `Σ_i weighted_profit_i · x_i` of the MIP built by `solve_mip`. -/
def objective (campaigns : List Campaign) (w : ℚ) (x : List ℕ) : ℚ :=
  ((campaigns.zip x).map (fun p => weighted_profit w p.1 * (p.2 : ℚ))).sum

/-- Total leads assigned to the campaigns of one category
(`sum_cat` in `solve_mip`, also the corpo sum of constraint 2). -/
def cat_sum (campaigns : List Campaign) (x : List ℕ) (cat : String) : ℕ :=
  (((campaigns.zip x).filter (fun p => p.1.category == cat)).map (fun p => p.2)).sum

/-- Number of campaigns in one category (the length of `cat_dict[category]`). -/
def cat_count (campaigns : List Campaign) (cat : String) : ℕ :=
  (campaigns.filter (fun c => c.category == cat)).length

/-- Total spend `Σ cost_i · x_i` bounded by `budget_max` in `solve_mip`. -/
def total_spend (campaigns : List Campaign) (x : List ℕ) : ℚ :=
  ((campaigns.zip x).map (fun p => p.1.cost * (p.2 : ℚ))).sum

/-- Whether a campaign of category `"corpo"` is present
(`corpo_indices` nonempty in `solve_mip`). -/
def has_corpo (campaigns : List Campaign) : Bool :=
  campaigns.any (fun c => c.category == "corpo")

/-- The feasible set of the MIP built by `solve_mip`: an assignment of a
non-negative integer number of leads to each campaign satisfying the four
constraint groups.  The corpo floor is added only when a corpo campaign
exists, and the minimum-share constraint only applies to campaigns whose
category holds at least two campaigns, exactly as in the source. -/
def isFeasible (campaigns : List Campaign) (total_leads : ℕ)
    (corpo_percent min_share budget_max : ℚ) (x : List ℕ) : Prop :=
  x.length = campaigns.length ∧
  x.sum = total_leads ∧
  (has_corpo campaigns = true →
    corpo_percent * (total_leads : ℚ) ≤ (cat_sum campaigns x "corpo" : ℚ)) ∧
  (∀ p ∈ campaigns.zip x, 1 < cat_count campaigns p.1.category →
    min_share * (cat_sum campaigns x p.1.category : ℚ) ≤ (p.2 : ℚ)) ∧
  total_spend campaigns x ≤ budget_max

instance isFeasible.decidable (campaigns : List Campaign) (total_leads : ℕ)
    (corpo_percent min_share budget_max : ℚ) (x : List ℕ) :
    Decidable (isFeasible campaigns total_leads corpo_percent min_share budget_max x) := by
  unfold isFeasible
  infer_instance

/-- `solve_mip` reports status `"Optimal"` with assignment `x` exactly when
`x` is feasible and maximizes the objective over the feasible set. -/
def isOptimal (campaigns : List Campaign) (total_leads : ℕ)
    (corpo_percent min_share budget_max w : ℚ) (x : List ℕ) : Prop :=
  isFeasible campaigns total_leads corpo_percent min_share budget_max x ∧
  ∀ y : List ℕ, isFeasible campaigns total_leads corpo_percent min_share budget_max y →
    objective campaigns w y ≤ objective campaigns w x

example : isFeasible [⟨"A", "laser", 1, 3, 3⟩, ⟨"B", "laser", 2, 3, 3⟩]
    8 0 (1/4) 100 [2, 6] := by with_unfolding_all decide

/-- Python `round` with no digit argument: round half to even. -/
def pyRound (q : ℚ) : ℤ :=
  if q - (⌊q⌋ : ℚ) < 1/2 then ⌊q⌋
  else if 1/2 < q - (⌊q⌋ : ℚ) then ⌊q⌋ + 1
  else if ⌊q⌋ % 2 = 0 then ⌊q⌋ else ⌊q⌋ + 1

/-- One row of the result table of `compute_solution_df`.  The `leads` cell is
`int(round(x_values[i] or 0))`; every monetary cell is the rounding of the
exact (pre-rounding) per-campaign quantity. -/
structure ResultRow where
  campagna : String
  categoria : String
  leads : ℤ
  costo_tot : ℤ
  ricavo_tot : ℤ
  ricavo_60_tot : ℤ
  margine_immediato : ℤ
  margine_60 : ℤ
  margine_pesato : ℤ
deriving DecidableEq

/-- The `leads` value of one pair (campaign, raw solver value):
`int(round(x_values[i] or 0))`; a missing value counts as 0. -/
def row_leads (p : Campaign × Option ℚ) : ℤ :=
  pyRound (p.2.getD 0)

/-- Exact (pre-rounding) per-campaign cost `cost * leads`. -/
def row_cost (p : Campaign × Option ℚ) : ℚ :=
  p.1.cost * (row_leads p : ℚ)

/-- Exact per-campaign revenue `revenue * leads`. -/
def row_revenue (p : Campaign × Option ℚ) : ℚ :=
  p.1.revenue * (row_leads p : ℚ)

/-- Exact per-campaign 60-day revenue `revenue_60d * leads`. -/
def row_revenue_60d (p : Campaign × Option ℚ) : ℚ :=
  p.1.revenue_60d * (row_leads p : ℚ)

/-- Exact per-campaign immediate margin `(revenue - cost) * leads`. -/
def row_margin_immediate (p : Campaign × Option ℚ) : ℚ :=
  (p.1.revenue - p.1.cost) * (row_leads p : ℚ)

/-- Exact per-campaign 60-day margin `(revenue_60d - cost) * leads`. -/
def row_margin_60 (p : Campaign × Option ℚ) : ℚ :=
  (p.1.revenue_60d - p.1.cost) * (row_leads p : ℚ)

/-- Exact per-campaign weighted margin. -/
def row_margin_weighted (w : ℚ) (p : Campaign × Option ℚ) : ℚ :=
  row_margin_immediate p * w + row_margin_60 p * (1 - w)

/-- One displayed row of the result table: every monetary cell is
individually rounded with `int(round(...))`. -/
def mk_row (w : ℚ) (p : Campaign × Option ℚ) : ResultRow :=
  { campagna := p.1.name
  , categoria := p.1.category
  , leads := row_leads p
  , costo_tot := pyRound (row_cost p)
  , ricavo_tot := pyRound (row_revenue p)
  , ricavo_60_tot := pyRound (row_revenue_60d p)
  , margine_immediato := pyRound (row_margin_immediate p)
  , margine_60 := pyRound (row_margin_60 p)
  , margine_pesato := pyRound (row_margin_weighted w p) }

/-- The result table of `compute_solution_df`: per-campaign rows plus the
TOTALE row.  The TOTALE `Leads` cell is the exact sum `lead_sum` of the
per-row integer leads; every monetary TOTALE cell is the rounding of the
exact pre-rounding column sum (the loop accumulators `cost_sum`, ...). -/
structure SolutionDf where
  rows : List ResultRow
  tot_leads : ℤ
  tot_costo : ℤ
  tot_ricavo : ℤ
  tot_ricavo_60 : ℤ
  tot_margine_immediato : ℤ
  tot_margine_60 : ℤ
  tot_margine_pesato : ℤ
deriving DecidableEq

/-- Shallow embedding of `compute_solution_df`. -/
def compute_solution_df (campaigns : List Campaign) (x_values : List (Option ℚ))
    (w : ℚ) : SolutionDf :=
  let pairs := campaigns.zip x_values
  { rows := pairs.map (mk_row w)
  , tot_leads := (pairs.map row_leads).sum
  , tot_costo := pyRound ((pairs.map row_cost).sum)
  , tot_ricavo := pyRound ((pairs.map row_revenue).sum)
  , tot_ricavo_60 := pyRound ((pairs.map row_revenue_60d).sum)
  , tot_margine_immediato := pyRound ((pairs.map row_margin_immediate).sum)
  , tot_margine_60 := pyRound ((pairs.map row_margin_60).sum)
  , tot_margine_pesato := pyRound ((pairs.map (row_margin_weighted w)).sum) }

/-- The final status classification of `solve_mip` (lines 61-68): on status
`"Optimal"` the assignment and the objective value are returned, on any
other status the triple is `(status, None, None)`. -/
def solve_mip_result (status : String) (x_values : List ℚ) (obj : ℚ) :
    String × Option (List ℚ) × Option ℚ :=
  if status = "Optimal" then (status, some x_values, some obj)
  else (status, none, none)

/-- The Scenario-A pre-check quantity of `main`:
`min_budget_needed = Σ_i cost_i * (min_share * total_leads)`. -/
def min_budget_needed (campaigns : List Campaign) (min_share : ℚ)
    (total_leads : ℕ) : ℚ :=
  (campaigns.map (fun c => c.cost * (min_share * (total_leads : ℚ)))).sum

/-- The campaign list handed to `solve_mip` for Scenario A by `main`:
`none` when the budget pre-check fails (an error is shown and `main`
returns without solving), otherwise the unmodified campaign list. -/
def main_scenarioA_input (campaigns : List Campaign) (min_share : ℚ)
    (total_leads : ℕ) (budget_max_A : ℚ) : Option (List Campaign) :=
  if budget_max_A < min_budget_needed campaigns min_share total_leads then none
  else some campaigns

/-- ASCII lower-casing of one character, modelling Python `str.lower` on the
ASCII inputs of this app. -/
def ascii_lower (c : Char) : Char :=
  if 65 ≤ c.toNat ∧ c.toNat ≤ 90 then Char.ofNat (c.toNat + 32) else c

/-- Python `str.lower` (ASCII fragment). -/
def py_lower (s : String) : String :=
  String.mk (s.data.map ascii_lower)

/-- Python `str.strip`: drop leading and trailing whitespace. -/
def py_strip (s : String) : String :=
  String.mk (((s.data.dropWhile Char.isWhitespace).reverse.dropWhile
    Char.isWhitespace).reverse)

/-- One raw CSV row with the five columns the loader reads. -/
structure CsvRow where
  nome_campagna : String
  categoria_campagna : String
  costo_per_lead : ℚ
  ricavo_per_lead : ℚ
  ricavo_per_lead_60 : ℚ
deriving DecidableEq

/-- The campaign built from one CSV row (lines 192-204): the name is
stripped, the category lowered and stripped, and the three monetary columns
are converted to numbers unchanged — no sign validation of any kind. -/
def campaign_of_row (r : CsvRow) : Campaign :=
  { name := py_strip r.nome_campagna
  , category := py_strip (py_lower r.categoria_campagna)
  , cost := r.costo_per_lead
  , revenue := r.ricavo_per_lead
  , revenue_60d := r.ricavo_per_lead_60 }

/-- The five required CSV column names (line 189). -/
def required_columns : List String :=
  ["nome campagna", "categoria campagna", "costo per lead",
   "ricavo per lead", "ricavo per lead a 60 giorni"]

/-- Column-name normalization of line 188: `c.lower().strip()`. -/
def normalize_columns (cols : List String) : List String :=
  cols.map (fun c => py_strip (py_lower c))

/-- The guard of line 190: every required column must be present. -/
def csv_accepted (cols : List String) : Bool :=
  required_columns.all (fun r => (normalize_columns cols).contains r)

/-- The campaign list built by the CSV branch of `main`: `none` models the
`st.error("Mancano colonne ...")` branch in which no campaign is built and
the analysis never runs. -/
def csv_campaigns (cols : List String) (rows : List CsvRow) :
    Option (List Campaign) :=
  if csv_accepted cols then some (rows.map campaign_of_row) else none

/-! ### Helper lemmas -/

lemma length_mul_le_sum (l : List ℚ) (a : ℚ) (h : ∀ y ∈ l, a ≤ y) :
    (l.length : ℚ) * a ≤ l.sum := by
  induction l with
  | nil => simp
  | cons y t ih =>
    have hy : a ≤ y := h y (by simp)
    have ht : (t.length : ℚ) * a ≤ t.sum := ih (fun z hz => h z (by simp [hz]))
    have hexp : ((t.length : ℚ) + 1) * a = (t.length : ℚ) * a + a := by ring
    simp only [List.length_cons, List.sum_cons]
    push_cast
    linarith

lemma zip_map_snd (campaigns : List Campaign) (x : List ℕ)
    (h : x.length = campaigns.length) :
    (campaigns.zip x).map (fun p => p.2) = x :=
  List.map_snd_zip _ _ (le_of_eq h)

lemma zip_map_fst (campaigns : List Campaign) (x : List ℕ)
    (h : x.length = campaigns.length) :
    (campaigns.zip x).map (fun p => p.1) = campaigns :=
  List.map_fst_zip _ _ (ge_of_eq h)

lemma cat_sum_all (campaigns : List Campaign) (x : List ℕ) (cat : String)
    (hall : ∀ c ∈ campaigns, c.category = cat)
    (h : x.length = campaigns.length) :
    cat_sum campaigns x cat = x.sum := by
  unfold cat_sum
  have hf : (campaigns.zip x).filter (fun p => p.1.category == cat)
      = campaigns.zip x := by
    rw [List.filter_eq_self]
    rintro ⟨c, n⟩ hp
    have hc : c ∈ campaigns := (List.of_mem_zip hp).1
    simpa using hall c hc
  rw [hf, zip_map_snd campaigns x h]

lemma cat_count_all (campaigns : List Campaign) (cat : String)
    (hall : ∀ c ∈ campaigns, c.category = cat) :
    cat_count campaigns cat = campaigns.length := by
  unfold cat_count
  have hf : campaigns.filter (fun c => c.category == cat) = campaigns := by
    rw [List.filter_eq_self]
    intro c hc
    simpa using hall c hc
  rw [hf]

lemma zip_snd_cast_sum (campaigns : List Campaign) (x : List ℕ)
    (h : x.length = campaigns.length) :
    ((campaigns.zip x).map (fun p => ((p.2 : ℕ) : ℚ))).sum = ((x.sum : ℕ) : ℚ) := by
  have h1 : (campaigns.zip x).map (fun p => ((p.2 : ℕ) : ℚ))
      = x.map (fun n : ℕ => (n : ℚ)) := by
    have h2 := zip_map_snd campaigns x h
    calc (campaigns.zip x).map (fun p => ((p.2 : ℕ) : ℚ))
        = ((campaigns.zip x).map (fun p => p.2)).map (fun n : ℕ => (n : ℚ)) := by
          rw [List.map_map]; rfl
      _ = x.map (fun n : ℕ => (n : ℚ)) := by rw [h2]
  rw [h1, Nat.cast_list_sum]

lemma isFeasible_budget_mono {campaigns : List Campaign} {T : ℕ}
    {cp ms b1 b2 : ℚ} {x : List ℕ} (hb : b1 ≤ b2)
    (hx : isFeasible campaigns T cp ms b1 x) :
    isFeasible campaigns T cp ms b2 x := by
  obtain ⟨h1, h2, h3, h4, h5⟩ := hx
  exact ⟨h1, h2, h3, h4, le_trans h5 hb⟩

lemma pyRound_natCast (n : ℕ) : pyRound (n : ℚ) = (n : ℤ) := by
  have hfl : ⌊(n : ℚ)⌋ = (n : ℤ) := Int.floor_natCast n
  have hcond : (n : ℚ) - ((⌊(n : ℚ)⌋ : ℤ) : ℚ) < 1/2 := by
    rw [hfl]; push_cast; norm_num
  unfold pyRound
  rw [if_pos hcond, hfl]

lemma tot_leads_of_nat (campaigns : List Campaign) (x : List ℕ) (w : ℚ)
    (h : x.length = campaigns.length) :
    (compute_solution_df campaigns (x.map (fun n : ℕ => some (n : ℚ))) w).tot_leads
      = (x.sum : ℤ) := by
  have hlen : (x.map (fun n : ℕ => some (n : ℚ))).length = campaigns.length := by
    simpa using h
  have h2 : (campaigns.zip (x.map (fun n : ℕ => some (n : ℚ)))).map (fun p => p.2)
      = x.map (fun n : ℕ => some (n : ℚ)) :=
    List.map_snd_zip _ _ (le_of_eq hlen)
  show ((campaigns.zip (x.map (fun n : ℕ => some (n : ℚ)))).map row_leads).sum = _
  have h3 : (campaigns.zip (x.map (fun n : ℕ => some (n : ℚ)))).map row_leads
      = x.map (fun n : ℕ => (n : ℤ)) := by
    calc (campaigns.zip (x.map (fun n : ℕ => some (n : ℚ)))).map row_leads
        = ((campaigns.zip (x.map (fun n : ℕ => some (n : ℚ)))).map
            (fun p => p.2)).map (fun v : Option ℚ => pyRound (v.getD 0)) := by
          rw [List.map_map]; rfl
      _ = (x.map (fun n : ℕ => some (n : ℚ))).map
            (fun v : Option ℚ => pyRound (v.getD 0)) := by
          rw [h2]
      _ = x.map (fun n : ℕ => pyRound ((n : ℚ))) := by rw [List.map_map]; rfl
      _ = x.map (fun n : ℕ => (n : ℤ)) :=
          List.map_congr_left (fun n _ => pyRound_natCast n)
  rw [h3, ← Nat.cast_list_sum]

/-- A one-campaign instance with zero cost, used to exhibit concrete optimal
assignments: with a single campaign the equality constraint pins the whole
assignment down. -/
def c_single : Campaign := ⟨"A", "laser", 0, 2, 2⟩

lemma c_single_feasible (b : ℚ) (hb : 0 ≤ b) :
    isFeasible [c_single] 3 0 (1/5) b [3] := by
  refine ⟨rfl, rfl, ?_, ?_, ?_⟩
  · intro hco
    exact absurd hco (by with_unfolding_all decide)
  · intro p hp
    have hp' : p = (c_single, 3) := by simpa using hp
    subst hp'
    intro hcnt
    exact absurd hcnt (by with_unfolding_all decide)
  · have h0 : total_spend [c_single] [3] = 0 := by with_unfolding_all decide
    rw [h0]; exact hb

lemma c_single_opt (b : ℚ) (hb : 0 ≤ b) :
    isOptimal [c_single] 3 0 (1/5) b (1/2) [3] := by
  refine ⟨c_single_feasible b hb, ?_⟩
  intro y hy
  obtain ⟨hlen, hsum, -, -, -⟩ := hy
  have hy1 : y = [3] := by
    obtain ⟨a, rfl⟩ := List.length_eq_one.mp (by simpa using hlen)
    simp at hsum
    simp [hsum]
  rw [hy1]

/-! ### Claims -/

/-- Claim C1: whenever the solver reports status Optimal, the assignment
gives each campaign a non-negative integer number of leads (the decision
variables are naturals), their sum equals `total_leads` exactly, and the
TOTALE `Leads` cell of the result table built by `compute_solution_df`
equals `total_leads` as well. -/
theorem c1_optimal_assignment_totals (campaigns : List Campaign) (T : ℕ)
    (cp ms b w : ℚ) (x : List ℕ)
    (hx : isOptimal campaigns T cp ms b w x) :
    x.sum = T ∧
    (compute_solution_df campaigns (x.map (fun n : ℕ => some (n : ℚ))) w).tot_leads
      = (T : ℤ) := by
  obtain ⟨⟨hlen, hsum, -, -, -⟩, -⟩ := hx
  refine ⟨hsum, ?_⟩
  rw [tot_leads_of_nat campaigns x w hlen, hsum]

theorem c1_witness :
    isOptimal [c_single] 3 0 (1/5) 5 (1/2) [3] ∧
    ([3] : List ℕ).sum = 3 ∧
    (compute_solution_df [c_single]
      (([3] : List ℕ).map (fun n : ℕ => some (n : ℚ))) (1/2)).tot_leads = (3 : ℤ) := by
  have hopt := c_single_opt 5 (by with_unfolding_all decide)
  exact ⟨hopt,
    (c1_optimal_assignment_totals [c_single] 3 0 (1/5) 5 (1/2) [3] hopt).1,
    (c1_optimal_assignment_totals [c_single] 3 0 (1/5) 5 (1/2) [3] hopt).2⟩

/-- The two-singleton-category instance witnessing the single-campaign
exemption of the share constraint in claim C2. -/
def c2_exempt : List Campaign := [⟨"S", "laser", 1, 3, 3⟩, ⟨"C", "corpo", 1, 4, 4⟩]

/-- Claim C2: the engine implements the strong per-campaign share variant —
in every feasible (hence every Optimal) assignment each campaign of a
category with at least two campaigns receives at least `min_share` times the
category's assigned leads (hence at least the floor of that product), while
a category with exactly one campaign is exempt: the concrete instance
`c2_exempt` with `min_share = 2` is feasible although its singleton "laser"
campaign receives less than `min_share` times its category total, which the
share constraint would forbid were it imposed on singleton categories. -/
theorem c2_strong_share (campaigns : List Campaign) (T : ℕ) (cp ms b : ℚ)
    (x : List ℕ) (hx : isFeasible campaigns T cp ms b x) :
    (∀ p ∈ campaigns.zip x, 1 < cat_count campaigns p.1.category →
      ms * (cat_sum campaigns x p.1.category : ℚ) ≤ (p.2 : ℚ) ∧
      ⌊ms * (cat_sum campaigns x p.1.category : ℚ)⌋ ≤ (p.2 : ℤ)) ∧
    (isFeasible c2_exempt 10 (1/2) 2 100 [5, 5] ∧
      ¬ ((2 : ℚ) * (cat_sum c2_exempt [5, 5] "laser" : ℚ) ≤ ((5 : ℕ) : ℚ))) := by
  refine ⟨?_, by with_unfolding_all decide, by with_unfolding_all decide⟩
  intro p hp hcnt
  have h1 := hx.2.2.2.1 p hp hcnt
  refine ⟨h1, ?_⟩
  have h2 : ⌊ms * (cat_sum campaigns x p.1.category : ℚ)⌋ ≤ ⌊((p.2 : ℕ) : ℚ)⌋ :=
    Int.floor_mono h1
  rwa [Int.floor_natCast] at h2

/-- The two-campaign one-category instance used to instantiate C2. -/
def c2C : List Campaign := [⟨"A", "laser", 1, 3, 3⟩, ⟨"B", "laser", 2, 3, 3⟩]

theorem c2_witness :
    isFeasible c2C 8 0 (1/4) 100 [2, 6] ∧
    (1/4 : ℚ) * (cat_sum c2C [2, 6] "laser" : ℚ) ≤ ((2 : ℕ) : ℚ) := by
  have hfeas : isFeasible c2C 8 0 (1/4) 100 [2, 6] := by with_unfolding_all decide
  refine ⟨hfeas, ?_⟩
  have h := (c2_strong_share c2C 8 0 (1/4) 100 [2, 6] hfeas).1
    (⟨"A", "laser", 1, 3, 3⟩, 2) (by with_unfolding_all decide)
    (by with_unfolding_all decide)
  exact h.1

/-- Claim C3: when at least one corpo campaign exists, every feasible (hence
every Optimal) assignment satisfies the corpo floor, and since the corpo
lead total is an integer it is at least the ceiling of
`corpo_percent * total_leads`; when no corpo campaign exists the constraint
is simply absent — feasibility does not depend on `corpo_percent` at all. -/
theorem c3_corpo_floor (campaigns : List Campaign) (T : ℕ) (cp cp' ms b : ℚ)
    (x : List ℕ) :
    (isFeasible campaigns T cp ms b x → has_corpo campaigns = true →
      cp * (T : ℚ) ≤ (cat_sum campaigns x "corpo" : ℚ) ∧
      ⌈cp * (T : ℚ)⌉ ≤ (cat_sum campaigns x "corpo" : ℤ)) ∧
    (has_corpo campaigns = false →
      (isFeasible campaigns T cp ms b x ↔ isFeasible campaigns T cp' ms b x)) := by
  constructor
  · intro hx hco
    have h1 := hx.2.2.1 hco
    refine ⟨h1, ?_⟩
    rw [Int.ceil_le]
    push_cast
    exact h1
  · intro hco
    constructor <;>
      (rintro ⟨h1, h2, h3, h4, h5⟩; exact ⟨h1, h2, by simp [hco], h4, h5⟩)

/-- The corpo-containing instance used to instantiate C3. -/
def c3C : List Campaign := [⟨"A", "corpo", 1, 3, 3⟩, ⟨"B", "laser", 1, 2, 2⟩]

theorem c3_witness :
    isFeasible c3C 10 (3/10) 0 100 [3, 7] ∧ has_corpo c3C = true ∧
    (3/10 : ℚ) * ((10 : ℕ) : ℚ) ≤ (cat_sum c3C [3, 7] "corpo" : ℚ) := by
  have hfeas : isFeasible c3C 10 (3/10) 0 100 [3, 7] := by
    with_unfolding_all decide
  have h := (c3_corpo_floor c3C 10 (3/10) 0 0 100 [3, 7]).1 hfeas
    (by with_unfolding_all decide)
  exact ⟨hfeas, by with_unfolding_all decide, h.1⟩

/-- Claim C6: for a fixed campaign list and fixed `total_leads`,
`corpo_percent`, `min_share` and `weight_immediate`, enlarging the budget
never decreases the optimal objective value: whenever budgets `b1 ≤ b2`
both admit optimal assignments, the objective at the `b2`-optimum is at
least the objective at the `b1`-optimum; Scenario B uses the sentinel
budget `10^9`, so its objective is at least Scenario A's whenever
`budget_max_A ≤ 10^9`. -/
theorem c6_budget_monotone (campaigns : List Campaign) (T : ℕ)
    (cp ms w b1 b2 : ℚ) (x1 x2 : List ℕ) (hb : b1 ≤ b2)
    (h1 : isOptimal campaigns T cp ms b1 w x1)
    (h2 : isOptimal campaigns T cp ms b2 w x2) :
    objective campaigns w x1 ≤ objective campaigns w x2 :=
  h2.2 x1 (isFeasible_budget_mono hb h1.1)

/-- A category of two campaigns with `min_share * 2 > 1` and zero costs:
the budget pre-check (the only pre-solve check in `main`) passes and the
campaign list is handed to the solver. -/
def c4C : List Campaign := [⟨"A", "laser", 0, 1, 1⟩, ⟨"B", "laser", 0, 1, 1⟩]

/-- Claim C4 counterexample: with two "laser" campaigns of zero cost and
`min_share = 3/5` (so `min_share * count = 6/5 > 1`), `main`'s only
pre-solve check — the budget bound — passes and the solver is invoked on
the model: the condition is not detected before solving. -/
theorem c4_counterexample :
    1 < cat_count c4C "laser" ∧
    1 < (3/5 : ℚ) * (cat_count c4C "laser" : ℚ) ∧
    main_scenarioA_input c4C (3/5) 100 100 = some c4C := by
  with_unfolding_all decide

/-- Claim C4 amended: the engine performs no pre-solve detection of
`min_share * count > 1` (see `c4_counterexample`); instead, when every
campaign lies in one category of at least two campaigns with
`min_share * count > 1` and `total_leads > 0`, the model itself has no
feasible point, so the solver — which is invoked — reports a non-Optimal
status. -/
theorem c4_amended (campaigns : List Campaign) (cat : String) (T : ℕ)
    (cp ms b : ℚ)
    (hall : ∀ c ∈ campaigns, c.category = cat)
    (hcount : 1 < campaigns.length)
    (hms : 1 < ms * (campaigns.length : ℚ))
    (hT : 0 < T) :
    ¬ ∃ x, isFeasible campaigns T cp ms b x := by
  rintro ⟨x, hx⟩
  obtain ⟨hlen, hsum, -, hshare, -⟩ := hx
  have hcats : cat_sum campaigns x cat = T := by
    rw [cat_sum_all campaigns x cat hall hlen, hsum]
  have hcnt : cat_count campaigns cat = campaigns.length :=
    cat_count_all campaigns cat hall
  have hbound : ∀ p ∈ campaigns.zip x, ms * ((T : ℕ) : ℚ) ≤ ((p.2 : ℕ) : ℚ) := by
    rintro ⟨c, n⟩ hp
    have hc : c ∈ campaigns := (List.of_mem_zip hp).1
    have hcat : c.category = cat := hall c hc
    have hg : 1 < cat_count campaigns (c, n).1.category := by
      simpa [hcat, hcnt] using hcount
    have h : ms * (cat_sum campaigns x c.category : ℚ) ≤ ((n : ℕ) : ℚ) :=
      hshare (c, n) hp hg
    show ms * ((T : ℕ) : ℚ) ≤ ((n : ℕ) : ℚ)
    rwa [hcat, hcats] at h
  have hlensum :
      ((((campaigns.zip x).map (fun p => ((p.2 : ℕ) : ℚ))).length : ℕ) : ℚ)
        * (ms * ((T : ℕ) : ℚ))
        ≤ ((campaigns.zip x).map (fun p => ((p.2 : ℕ) : ℚ))).sum := by
    apply length_mul_le_sum
    intro q hq
    obtain ⟨p, hp, rfl⟩ := List.mem_map.mp hq
    exact hbound p hp
  have hlen2 : ((campaigns.zip x).map (fun p => ((p.2 : ℕ) : ℚ))).length
      = campaigns.length := by
    simp [List.length_zip, hlen]
  have hsum2 : ((campaigns.zip x).map (fun p => ((p.2 : ℕ) : ℚ))).sum
      = ((T : ℕ) : ℚ) := by
    rw [zip_snd_cast_sum campaigns x hlen, hsum]
  rw [hlen2, hsum2] at hlensum
  have hTpos : (0 : ℚ) < ((T : ℕ) : ℚ) := by exact_mod_cast hT
  nlinarith [hlensum, hms, hTpos, mul_pos (sub_pos.mpr hms) hTpos]

theorem c4_witness :
    0 < 10 ∧ ¬ ∃ x, isFeasible c4C 10 0 (3/5) 100 x :=
  ⟨by decide, c4_amended c4C "laser" 10 0 (3/5) 100
    (by with_unfolding_all decide) (by decide)
    (by with_unfolding_all decide) (by decide)⟩

/-- Two campaigns in distinct singleton categories: the share constraint is
vacuous for both, so `[0, 100]` is feasible at zero spend, yet the
pre-check quantity `Σ cost_i * min_share * total_leads = 500` exceeds the
budget `100` and `main` rejects the input without solving. -/
def c5X : List Campaign := [⟨"A", "laser", 10, 0, 0⟩, ⟨"B", "corpo", 0, 5, 5⟩]

/-- Claim C5 counterexample: `main` rejects `c5X` with budget 100 in the
pre-check (`main_scenarioA_input = none`), although the assignment
`[0, 100]` is feasible within that very budget — the pre-check quantity is
not a lower bound on feasible spend and the pre-check does reject inputs
that admit a feasible allocation within `budget_max_A`. -/
theorem c5_counterexample :
    main_scenarioA_input c5X (1/2) 100 100 = none ∧
    isFeasible c5X 100 0 (1/2) 100 [0, 100] := by
  with_unfolding_all decide

/-- Claim C5 amended: `main` computes
`min_budget_needed = Σ cost_i * min_share * total_leads` and, when
`budget_max_A` is below it, reports an error and never invokes the solver
(first conjunct); the quantity is a genuine lower bound on the spend of
every feasible allocation only in the special case in which all campaigns
lie in one common category of at least two campaigns and costs are
non-negative (second conjunct) — in general it can exceed the spend of
feasible allocations, so the pre-check may reject feasible inputs
(see `c5_counterexample`). -/
theorem c5_amended :
    (∀ (campaigns : List Campaign) (ms : ℚ) (T : ℕ) (bA : ℚ),
      bA < min_budget_needed campaigns ms T →
      main_scenarioA_input campaigns ms T bA = none) ∧
    (∀ (campaigns : List Campaign) (cat : String) (T : ℕ) (cp ms b : ℚ)
      (x : List ℕ),
      (∀ c ∈ campaigns, c.category = cat) →
      1 < campaigns.length →
      (∀ c ∈ campaigns, 0 ≤ c.cost) →
      isFeasible campaigns T cp ms b x →
      min_budget_needed campaigns ms T ≤ total_spend campaigns x) := by
  constructor
  · intro campaigns ms T bA h
    unfold main_scenarioA_input
    rw [if_pos h]
  · intro campaigns cat T cp ms b x hall hcount hcost hx
    obtain ⟨hlen, hsum, -, hshare, -⟩ := hx
    have hcats : cat_sum campaigns x cat = T := by
      rw [cat_sum_all campaigns x cat hall hlen, hsum]
    have hcnt : cat_count campaigns cat = campaigns.length :=
      cat_count_all campaigns cat hall
    have hpair : ∀ p ∈ campaigns.zip x,
        p.1.cost * (ms * ((T : ℕ) : ℚ)) ≤ p.1.cost * ((p.2 : ℕ) : ℚ) := by
      rintro ⟨c, n⟩ hp
      have hc : c ∈ campaigns := (List.of_mem_zip hp).1
      have hcat : c.category = cat := hall c hc
      have hg : 1 < cat_count campaigns (c, n).1.category := by
        simpa [hcat, hcnt] using hcount
      have h : ms * (cat_sum campaigns x c.category : ℚ) ≤ ((n : ℕ) : ℚ) :=
        hshare (c, n) hp hg
      rw [hcat, hcats] at h
      show c.cost * (ms * ((T : ℕ) : ℚ)) ≤ c.cost * ((n : ℕ) : ℚ)
      exact mul_le_mul_of_nonneg_left h (hcost c hc)
    have hmap : (campaigns.zip x).map (fun p => p.1.cost * (ms * ((T : ℕ) : ℚ)))
        = campaigns.map (fun c => c.cost * (ms * ((T : ℕ) : ℚ))) := by
      have h1 := zip_map_fst campaigns x hlen
      calc (campaigns.zip x).map (fun p => p.1.cost * (ms * ((T : ℕ) : ℚ)))
          = ((campaigns.zip x).map (fun p => p.1)).map
              (fun c => c.cost * (ms * ((T : ℕ) : ℚ))) := by
            rw [List.map_map]; rfl
        _ = campaigns.map (fun c => c.cost * (ms * ((T : ℕ) : ℚ))) := by rw [h1]
    unfold min_budget_needed total_spend
    rw [← hmap]
    exact List.sum_le_sum hpair

/-- The single-category instance used to instantiate C5's amended bound. -/
def c5C : List Campaign := [⟨"A", "laser", 1, 3, 3⟩, ⟨"B", "laser", 2, 3, 3⟩]

theorem c5_witness :
    main_scenarioA_input c5C (1/4) 8 1 = none ∧
    min_budget_needed c5C (1/4) 8 ≤ total_spend c5C [2, 6] := by
  constructor
  · exact c5_amended.1 c5C (1/4) 8 1 (by with_unfolding_all decide)
  · exact c5_amended.2 c5C "laser" 8 0 (1/4) 100 [2, 6]
      (by with_unfolding_all decide) (by decide)
      (by with_unfolding_all decide) (by with_unfolding_all decide)

theorem c6_witness :
    (5 : ℚ) ≤ 10^9 ∧
    objective [c_single] (1/2) [3] ≤ objective [c_single] (1/2) [3] := by
  have hb : (5 : ℚ) ≤ 10^9 := by with_unfolding_all decide
  exact ⟨hb, c6_budget_monotone [c_single] 3 0 (1/5) (1/2) 5 (10^9) [3] [3] hb
    (c_single_opt 5 (by with_unfolding_all decide))
    (c_single_opt (10^9) (by with_unfolding_all decide))⟩

/-- Claim C7: `solve_mip` returns the per-campaign assignment and the
objective value exactly when the reported status is `"Optimal"`; on every
other status it returns `(status, None, None)` — a structured result, not a
raised fault (the classification is a total function of the status). -/
theorem c7_result_shape (status : String) (x_values : List ℚ) (obj : ℚ) :
    (solve_mip_result status x_values obj).1 = status ∧
    (status = "Optimal" →
      solve_mip_result status x_values obj = (status, some x_values, some obj)) ∧
    (status ≠ "Optimal" →
      solve_mip_result status x_values obj = (status, none, none)) ∧
    ((solve_mip_result status x_values obj).2.1.isSome = true ↔
      status = "Optimal") ∧
    ((solve_mip_result status x_values obj).2.2.isSome = true ↔
      status = "Optimal") := by
  unfold solve_mip_result
  by_cases h : status = "Optimal" <;> simp [h]

theorem c7_witness :
    ("Infeasible" : String) ≠ "Optimal" ∧
    solve_mip_result "Infeasible" [1] 0 = ("Infeasible", none, none) :=
  ⟨by decide, (c7_result_shape "Infeasible" [1] 0).2.2.1 (by decide)⟩

/-- A CSV row carrying a negative cost per lead. -/
def c8_row : CsvRow := ⟨"X", "laser", -5, 10, 10⟩

/-- Claim C8 counterexample: the CSV loader accepts a row with
`cost_per_lead = -5` (all required columns present), builds the campaign
with the negative cost unchanged, and `main`'s only pre-solve check — the
budget bound — passes, so the negative coefficient is handed to the
solver: the engine performs no negativity validation. -/
theorem c8_counterexample :
    csv_campaigns required_columns [c8_row] = some [campaign_of_row c8_row] ∧
    (campaign_of_row c8_row).cost < 0 ∧
    main_scenarioA_input [campaign_of_row c8_row] (1/5) 10 0
      = some [campaign_of_row c8_row] := by
  with_unfolding_all decide

/-- Claim C8 amended: neither the CSV loader nor `main` validates signs —
the loader copies `costo per lead` (and the revenue columns) into the
campaign verbatim, and whenever the budget pre-check passes the campaign
list is handed to the solver unchanged, negative coefficients included
(the manual-entry path alone clamps its inputs to `≥ 0` via widget
bounds). -/
theorem c8_amended (cols : List String) (rows : List CsvRow)
    (campaigns : List Campaign) (ms : ℚ) (T : ℕ) (bA : ℚ)
    (hcsv : csv_campaigns cols rows = some campaigns)
    (hb : min_budget_needed campaigns ms T ≤ bA) :
    main_scenarioA_input campaigns ms T bA = some campaigns ∧
    campaigns.map (fun c => c.cost) = rows.map (fun r => r.costo_per_lead) := by
  constructor
  · unfold main_scenarioA_input
    rw [if_neg (not_lt.mpr hb)]
  · unfold csv_campaigns at hcsv
    by_cases hacc : csv_accepted cols = true
    · rw [if_pos hacc] at hcsv
      obtain rfl : rows.map campaign_of_row = campaigns := Option.some.inj hcsv
      rw [List.map_map]
      rfl
    · rw [if_neg hacc] at hcsv
      cases hcsv

/-- A second negative-cost CSV row, used to instantiate `c8_amended`. -/
def c8_row2 : CsvRow := ⟨"Y", "laser", -3, 8, 8⟩

theorem c8_witness :
    csv_campaigns required_columns [c8_row2] = some [campaign_of_row c8_row2] ∧
    min_budget_needed [campaign_of_row c8_row2] (1/5) 10 ≤ 0 ∧
    main_scenarioA_input [campaign_of_row c8_row2] (1/5) 10 0
      = some [campaign_of_row c8_row2] ∧
    [campaign_of_row c8_row2].map (fun c => c.cost)
      = [c8_row2].map (fun r => r.costo_per_lead) := by
  have h := c8_amended required_columns [c8_row2] [campaign_of_row c8_row2]
    (1/5) 10 0 (by with_unfolding_all decide) (by with_unfolding_all decide)
  exact ⟨by with_unfolding_all decide, by with_unfolding_all decide, h.1, h.2⟩

/-- Claim C9 counterexample: a CSV whose columns lack
`"ricavo per lead a 60 giorni"` is rejected by the loader — no campaign is
built and the engine never runs, instead of running with objective
coefficient `revenue - cost`: the 60-day figure is mandatory, not
optional. -/
theorem c9_counterexample :
    csv_accepted ["nome campagna", "categoria campagna", "costo per lead",
      "ricavo per lead"] = false ∧
    csv_campaigns ["nome campagna", "categoria campagna", "costo per lead",
      "ricavo per lead"] [⟨"X", "laser", 1, 2, 0⟩] = none := by
  with_unfolding_all decide

/-- Claim C9 amended: `revenue_per_lead_60d` is required, not optional —
every accepted CSV must contain the 60-day column (first conjunct), and the
objective coefficient is always the weighted blend, which degenerates to
`revenue - cost` exactly in the boundary case `weight_immediate = 1`
(second conjunct). -/
theorem c9_amended :
    (∀ cols : List String, csv_accepted cols = true →
      "ricavo per lead a 60 giorni" ∈ normalize_columns cols) ∧
    (∀ c : Campaign, weighted_profit 1 c = c.revenue - c.cost) := by
  constructor
  · intro cols hacc
    have hmem : "ricavo per lead a 60 giorni" ∈ required_columns := by decide
    have h := List.all_eq_true.mp hacc _ hmem
    exact List.elem_iff.mp h
  · intro c
    unfold weighted_profit
    ring

theorem c9_witness :
    csv_accepted required_columns = true ∧
    "ricavo per lead a 60 giorni" ∈ normalize_columns required_columns ∧
    weighted_profit 1 ⟨"A", "laser", 1, 3, 7⟩ = (3 : ℚ) - 1 :=
  ⟨by with_unfolding_all decide,
    c9_amended.1 required_columns (by with_unfolding_all decide),
    c9_amended.2 ⟨"A", "laser", 1, 3, 7⟩⟩

/-- Two campaigns of cost `2/5` with one lead each: each row's rounded cost
cell is 0, while the TOTALE cost cell rounds the exact sum `4/5` to 1. -/
def c10C : List Campaign := [⟨"a", "laser", 2/5, 0, 0⟩, ⟨"b", "laser", 2/5, 0, 0⟩]

/-- The raw solver values for `c10C`. -/
def c10X : List (Option ℚ) := [some 1, some 1]

/-- Claim C10: in every result table the TOTALE `Leads` cell is the exact
sum of the per-row `Leads` cells, and every monetary TOTALE cell is the
rounding of the exact pre-rounding column sum — not the sum of the
individually rounded cells — so on `c10C` the displayed cost column
(0 + 0) does not add up to its displayed TOTALE value (1). -/
theorem c10_totale_rounding :
    (∀ (campaigns : List Campaign) (xv : List (Option ℚ)) (w : ℚ),
      (compute_solution_df campaigns xv w).tot_leads
        = ((compute_solution_df campaigns xv w).rows.map (fun r => r.leads)).sum) ∧
    (∀ (campaigns : List Campaign) (xv : List (Option ℚ)) (w : ℚ),
      (compute_solution_df campaigns xv w).tot_costo
        = pyRound (((campaigns.zip xv).map row_cost).sum)) ∧
    ((compute_solution_df c10C c10X (1/2)).tot_costo
      ≠ ((compute_solution_df c10C c10X (1/2)).rows.map
          (fun r => r.costo_tot)).sum) := by
  refine ⟨?_, fun _ _ _ => rfl, by with_unfolding_all decide⟩
  intro campaigns xv w
  show ((campaigns.zip xv).map row_leads).sum
      = (((campaigns.zip xv).map (mk_row w)).map (fun r => r.leads)).sum
  rw [List.map_map]
  rfl
